import Mathlib

/-!
Verification of the numeric core of `Risk.py`: `financial_projection`,
`dcf_valuation`, `calculate_npv` and `monte_carlo_simulation`, embedded
over `ℚ`.  Python's fallible float division (which raises
`ZeroDivisionError` on a zero denominator) is modelled by `pydiv`
returning `Except PyErr ℚ`, and Python list comprehensions that may
raise are modelled by `mapExcept`, which propagates the first error.
-/

/-- Errors a run of the Python core can raise: `ZeroDivisionError`
from division by zero, `IndexError` from indexing an empty list. -/
inductive PyErr : Type where
  | zeroDivision : PyErr
  | indexError : PyErr
deriving DecidableEq, Repr

/-- Python division: raises `ZeroDivisionError` when the denominator is
zero (true floats raise here, unlike IEEE infinity). -/
def pydiv (a b : ℚ) : Except PyErr ℚ :=
  if b = 0 then Except.error PyErr.zeroDivision else Except.ok (a / b)

/-- A Python list comprehension whose body may raise: evaluates
left-to-right and propagates the first error. -/
def mapExcept {α β : Type} (f : α → Except PyErr β) : List α → Except PyErr (List β)
  | [] => Except.ok []
  | a :: l =>
    match f a with
    | Except.error e => Except.error e
    | Except.ok b =>
      match mapExcept f l with
      | Except.error e => Except.error e
      | Except.ok bs => Except.ok (b :: bs)

/-- One row of the 5-year projection table built by
`financial_projection` (the dict appended each loop iteration). -/
structure ProjRow : Type where
  year : ℕ
  revenue : ℚ
  ebit : ℚ
  nopat : ℚ
  capex : ℚ
  wcChange : ℚ
  fcf : ℚ
deriving DecidableEq, Repr

/-- The body of the `for year in range(1, 6)` loop of
`financial_projection`: `revenue` is the mutable local that is
compounded by `(1 + growth_rate)` before each row is built. -/
def projAux (growth_rate ebit_margin tax_rate capex_pct wc_change_pct depreciation : ℚ) :
    ℕ → ℕ → ℚ → List ProjRow
  | _, 0, _ => []
  | year, fuel + 1, revenue =>
    let revenue' := revenue * (1 + growth_rate)
    let ebit := revenue' * ebit_margin
    let nopat := ebit * (1 - tax_rate)
    let capex := revenue' * capex_pct
    let wc_change := revenue' * wc_change_pct
    let fcf := nopat + depreciation - capex - wc_change
    { year := year, revenue := revenue', ebit := ebit, nopat := nopat,
      capex := capex, wcChange := wc_change, fcf := fcf } ::
      projAux growth_rate ebit_margin tax_rate capex_pct wc_change_pct depreciation
        (year + 1) fuel revenue'

/-- `financial_projection` from `Risk.py`: five iterations, years 1..5,
the revenue accumulator carried across iterations. -/
def financial_projection (revenue growth_rate ebit_margin tax_rate capex_pct
    wc_change_pct depreciation : ℚ) : List ProjRow :=
  projAux growth_rate ebit_margin tax_rate capex_pct wc_change_pct depreciation 1 5 revenue

/-- `calculate_npv` from `Risk.py`:
`sum([fcff[i] / (1 + r) ** i for i in range(len(fcff))])`.
`List.enum` supplies the pairs `(i, fcff[i])` with `i` starting at 0;
note `(1 + r) ^ 0 = 1` even when `1 + r = 0`, exactly as Python's
`0.0 ** 0 == 1.0`. -/
def calculate_npv (fcff : List ℚ) (r : ℚ) : Except PyErr ℚ :=
  match mapExcept (fun p => pydiv p.2 ((1 + r) ^ p.1)) fcff.enum with
  | Except.error e => Except.error e
  | Except.ok terms => Except.ok terms.sum

/-- `dcf_valuation` from `Risk.py`, evaluated in Python order:
first the generator sum `sum(fcf / (1 + discount_rate) ** i for i, fcf
in enumerate(free_cash_flows, start=1))`, then `free_cash_flows[-1]`
(an `IndexError` on the empty list), then the terminal-value division
by `discount_rate - terminal_growth_rate`, then the discounting of the
terminal value. -/
def dcf_valuation (free_cash_flows : List ℚ) (discount_rate terminal_growth_rate : ℚ) :
    Except PyErr ℚ :=
  match mapExcept (fun p => pydiv p.2 ((1 + discount_rate) ^ p.1))
      (List.enumFrom 1 free_cash_flows) with
  | Except.error e => Except.error e
  | Except.ok terms =>
    match free_cash_flows.getLast? with
    | none => Except.error PyErr.indexError
    | some last =>
      match pydiv (last * (1 + terminal_growth_rate))
          (discount_rate - terminal_growth_rate) with
      | Except.error e => Except.error e
      | Except.ok terminal_value =>
        match pydiv terminal_value ((1 + discount_rate) ^ free_cash_flows.length) with
        | Except.error e => Except.error e
        | Except.ok pv_terminal_value => Except.ok (terms.sum + pv_terminal_value)

/-- Modelled from the spec and numpy's documented behaviour:
`np.random.normal(mean, std)` is a location–scale transform
`mean + std * z` of a standard-normal draw `z`; the stream of
standard-normal draws is abstracted as `ω : ℕ → ℚ`.  With `std = 0`
the draw is exactly `mean`, matching numpy. -/
def normalDraw (ω : ℕ → ℚ) (mean std : ℚ) (k : ℕ) : ℚ :=
  mean + std * ω k

/-- `monte_carlo_simulation` from `Risk.py`: `num_simulations` is a
Python int, so it may be negative, in which case `range(num_simulations)`
is empty; draw `k` of the loop uses the `k`-th sample of the stream. -/
def monte_carlo_simulation (ω : ℕ → ℚ) (fcff : List ℚ) (r_mean r_std : ℚ)
    (num_simulations : ℤ) : Except PyErr (List ℚ) :=
  mapExcept (fun k => calculate_npv fcff (normalDraw ω r_mean r_std k))
    (List.range num_simulations.toNat)

/-- Python's `range(lo, hi + 1)` over integers, as used by the
sensitivity sweep `for change in range(sensitivity_range[0],
sensitivity_range[1] + 1)`. -/
def rangeIncl (lo hi : ℤ) : List ℤ :=
  (List.range (hi + 1 - lo).toNat).map (fun i => lo + i)

/-- The FCFF branch of the sensitivity analysis in `Risk.py`:
for each integer `change` in the inclusive range, scale every cash
flow by `(1 + change / 100)` and record `(change, npv)`. -/
def sensitivity_fcff (fcff : List ℚ) (base_discount_rate : ℚ) (lo hi : ℤ) :
    Except PyErr (List (ℤ × ℚ)) :=
  mapExcept (fun (change : ℤ) =>
    match calculate_npv (fcff.map (fun f => f * (1 + (change : ℚ) / 100)))
        base_discount_rate with
    | Except.error e => Except.error e
    | Except.ok npv => Except.ok (change, npv)) (rangeIncl lo hi)

/-- The mathematical value `calculate_npv` computes when no division
raises: `Σ fcff[i] / (1+r)^i`, 0-indexed. -/
def npvVal (fcff : List ℚ) (r : ℚ) : ℚ :=
  (fcff.enum.map (fun p => p.2 / (1 + r) ^ p.1)).sum

/-- The mathematical value `dcf_valuation` computes when no division
raises: 1-indexed discounted sum plus discounted terminal value. -/
def dcfVal (fcfs : List ℚ) (r g : ℚ) : ℚ :=
  ((List.enumFrom 1 fcfs).map (fun p => p.2 / (1 + r) ^ p.1)).sum +
    (fcfs.getLastD 0 * (1 + g) / (r - g)) / (1 + r) ^ fcfs.length

/-! ## Helper lemmas -/

theorem pydiv_ok {a b : ℚ} (hb : b ≠ 0) : pydiv a b = Except.ok (a / b) := by
  simp [pydiv, hb]

theorem mapExcept_ok {α β : Type} (f : α → Except PyErr β) (g : α → β) :
    ∀ l : List α, (∀ a ∈ l, f a = Except.ok (g a)) →
      mapExcept f l = Except.ok (l.map g) := by
  intro l
  induction l with
  | nil => intro _; rfl
  | cons a l ih =>
    intro h
    have ha : f a = Except.ok (g a) := h a (by simp)
    have hl := ih (fun x hx => h x (by simp [hx]))
    simp [mapExcept, ha, hl]

/-- When every division has a nonzero denominator, `calculate_npv`
returns the 0-indexed discounted sum `npvVal`. -/
theorem calculate_npv_ok (fcff : List ℚ) (r : ℚ) (hr : (1 : ℚ) + r ≠ 0) :
    calculate_npv fcff r = Except.ok (npvVal fcff r) := by
  have h := mapExcept_ok (fun p : ℕ × ℚ => pydiv p.2 ((1 + r) ^ p.1))
    (fun p : ℕ × ℚ => p.2 / (1 + r) ^ p.1) fcff.enum
    (fun p _ => pydiv_ok (pow_ne_zero p.1 hr))
  simp [calculate_npv, h, npvVal]

/-- When the schedule is nonempty and no division raises,
`dcf_valuation` returns `dcfVal`. -/
theorem dcf_valuation_ok (fcfs : List ℚ) (r g : ℚ) (hne : fcfs ≠ [])
    (hr : (1 : ℚ) + r ≠ 0) (hrg : r - g ≠ 0) :
    dcf_valuation fcfs r g = Except.ok (dcfVal fcfs r g) := by
  have hmap := mapExcept_ok (fun p : ℕ × ℚ => pydiv p.2 ((1 + r) ^ p.1))
    (fun p : ℕ × ℚ => p.2 / (1 + r) ^ p.1) (List.enumFrom 1 fcfs)
    (fun p _ => pydiv_ok (pow_ne_zero p.1 hr))
  obtain ⟨x, hx⟩ := Option.isSome_iff_exists.mp (List.getLast?_isSome.mpr hne)
  have hD : fcfs.getLastD 0 = x := by
    rw [List.getLastD_eq_getLast?, hx]; rfl
  simp [dcf_valuation, hmap, hx, pydiv_ok hrg,
    pydiv_ok (pow_ne_zero fcfs.length hr), dcfVal, hD, div_div]

/-- Scaling every cash flow scales the 0-indexed NPV value. -/
theorem npvVal_map_mul (s : List ℚ) (r c : ℚ) :
    npvVal (s.map (fun f => f * c)) r = c * npvVal s r := by
  simp only [npvVal, List.enum, List.enumFrom_map, List.map_map]
  have h : ((fun p : ℕ × ℚ => p.2 / (1 + r) ^ p.1) ∘ Prod.map id (fun f => f * c)) =
      fun p : ℕ × ℚ => c * (p.2 / (1 + r) ^ p.1) := by
    funext p
    simp [Prod.map]
    ring
  rw [h, List.sum_map_mul_left]

/-- On a schedule `L ++ [a]`, the last discounted cash flow and the
discounted terminal value merge into the single term
`a / ((r - g) * (1 + r) ^ L.length)`. -/
theorem dcfVal_concat (L : List ℚ) (a r g : ℚ) (hr : (1 : ℚ) + r ≠ 0)
    (hrg : r - g ≠ 0) :
    dcfVal (L ++ [a]) r g =
      ((List.enumFrom 1 L).map (fun p => p.2 / (1 + r) ^ p.1)).sum +
        a / ((r - g) * (1 + r) ^ L.length) := by
  unfold dcfVal
  rw [List.enumFrom_append, List.map_append, List.sum_append]
  simp only [List.enumFrom_singleton, List.map_cons, List.map_nil, List.sum_cons,
    List.sum_nil, List.getLastD_concat, List.length_append, List.length_cons,
    List.length_nil, add_zero]
  have hpow : ((1 : ℚ) + r) ^ L.length ≠ 0 := pow_ne_zero _ hr
  rw [add_assoc]
  congr 1
  rw [show 1 + L.length = L.length + 1 from Nat.add_comm 1 L.length, pow_succ]
  field_simp
  ring

/-- Each 1-indexed discounted term is antitone in the rate on
`(-1, ∞)` for nonnegative cash flows, hence so is their sum. -/
theorem npv_terms_sum_anti (l : List (ℕ × ℚ)) (r1 r2 : ℚ)
    (hpos : ∀ p ∈ l, 0 ≤ p.2) (h1 : (0 : ℚ) < 1 + r1) (h12 : r1 < r2) :
    (l.map (fun p => p.2 / (1 + r2) ^ p.1)).sum ≤
      (l.map (fun p => p.2 / (1 + r1) ^ p.1)).sum := by
  apply List.sum_le_sum
  intro p hp
  have hle : (1 + r1) ^ p.1 ≤ (1 + r2) ^ p.1 :=
    pow_le_pow_left₀ h1.le (by linarith) p.1
  exact div_le_div_of_nonneg_left (hpos p hp) (pow_pos h1 p.1) hle

/-- Adding `δ` to the depreciation shifts every `fcf` field of the
projection rows by exactly `δ` and changes nothing else. -/
theorem projAux_dep_shift (g m t c w d δ : ℚ) :
    ∀ (fuel year : ℕ) (rev : ℚ),
      projAux g m t c w (d + δ) year fuel rev =
        (projAux g m t c w d year fuel rev).map
          (fun row => { row with fcf := row.fcf + δ }) := by
  intro fuel
  induction fuel with
  | zero => intro year rev; rfl
  | succ n ih =>
    intro year rev
    simp only [projAux, List.map_cons, ih, List.cons.injEq, ProjRow.mk.injEq,
      true_and, and_true]
    ring

/-! ## Claim theorems -/

/-- C1: `financial_projection` returns exactly 5 rows with years 1..5;
period-`k` revenue is the carried-forward revenue compounded to
`R·(1+g)^k`, EBIT = revenue × margin, NOPAT = EBIT × (1 − tax rate),
CapEx and working-capital change are the given percentages of that
period's revenue, and FCF = NOPAT + depreciation − CapEx − ΔWC. -/
theorem financial_projection_rows (R g m t c w d : ℚ) :
    financial_projection R g m t c w d = [
      { year := 1, revenue := R * (1+g), ebit := R * (1+g) * m,
        nopat := R * (1+g) * m * (1-t), capex := R * (1+g) * c,
        wcChange := R * (1+g) * w,
        fcf := R * (1+g) * m * (1-t) + d - R * (1+g) * c - R * (1+g) * w },
      { year := 2, revenue := R * (1+g)^2, ebit := R * (1+g)^2 * m,
        nopat := R * (1+g)^2 * m * (1-t), capex := R * (1+g)^2 * c,
        wcChange := R * (1+g)^2 * w,
        fcf := R * (1+g)^2 * m * (1-t) + d - R * (1+g)^2 * c - R * (1+g)^2 * w },
      { year := 3, revenue := R * (1+g)^3, ebit := R * (1+g)^3 * m,
        nopat := R * (1+g)^3 * m * (1-t), capex := R * (1+g)^3 * c,
        wcChange := R * (1+g)^3 * w,
        fcf := R * (1+g)^3 * m * (1-t) + d - R * (1+g)^3 * c - R * (1+g)^3 * w },
      { year := 4, revenue := R * (1+g)^4, ebit := R * (1+g)^4 * m,
        nopat := R * (1+g)^4 * m * (1-t), capex := R * (1+g)^4 * c,
        wcChange := R * (1+g)^4 * w,
        fcf := R * (1+g)^4 * m * (1-t) + d - R * (1+g)^4 * c - R * (1+g)^4 * w },
      { year := 5, revenue := R * (1+g)^5, ebit := R * (1+g)^5 * m,
        nopat := R * (1+g)^5 * m * (1-t), capex := R * (1+g)^5 * c,
        wcChange := R * (1+g)^5 * w,
        fcf := R * (1+g)^5 * m * (1-t) + d - R * (1+g)^5 * c - R * (1+g)^5 * w }] := by
  simp only [financial_projection, projAux, List.cons.injEq, ProjRow.mk.injEq,
    and_true, true_and]
  repeat' apply And.intro
  all_goals ring

/-- C2, counterexample: `calculate_npv([100,100,100], 0.1)` is exactly
`33100/121 ≈ 273.55`, more than 24 above the claimed `248.69` (the sum
is 0-indexed, so the first flow is undiscounted). -/
theorem calculate_npv_example_off :
    calculate_npv [100, 100, 100] (1/10) = Except.ok (33100/121) ∧
      (24869/100 : ℚ) + 24 < 33100/121 := by
  constructor
  · norm_num [calculate_npv, mapExcept, pydiv, List.enum, List.enumFrom]
  · norm_num

/-- C2, amended: `calculate_npv([100,100,100], 0.1)` returns exactly
`33100/121 ≈ 273.55`. -/
theorem calculate_npv_example_value :
    calculate_npv [100, 100, 100] (1/10) = Except.ok (33100/121) := by
  norm_num [calculate_npv, mapExcept, pydiv, List.enum, List.enumFrom]

/-- C5, counterexample: on the singleton schedule `[100]` the rate
`r = -1` does not divide by zero — the only term has exponent 0 and
`0 ^ 0 = 1` (as in Python `0.0 ** 0 == 1.0`) — so `calculate_npv`
returns `100` instead of failing. -/
theorem calculate_npv_singleton_neg_one :
    calculate_npv [100] (-1) = Except.ok 100 := by
  norm_num [calculate_npv, mapExcept, pydiv, List.enum, List.enumFrom]

/-- C5, amended: `r = -1` fails with a division-by-zero error for every
schedule with at least two cash flows (the term at index 1 divides by
`0^1 = 0`); the empty schedule returns 0 without error. -/
theorem calculate_npv_neg_one (s : List ℚ) (r : ℚ) (h : 2 ≤ s.length) :
    calculate_npv s (-1) = Except.error PyErr.zeroDivision ∧
      calculate_npv ([] : List ℚ) r = Except.ok 0 := by
  refine ⟨?_, rfl⟩
  match s with
  | a :: b :: t =>
    norm_num [calculate_npv, mapExcept, pydiv, List.enum, List.enumFrom]

/-- Witness for C5 at `s = [5, 7]`, `r = 1/3`. -/
theorem calculate_npv_neg_one_witness :
    calculate_npv [5, 7] (-1) = Except.error PyErr.zeroDivision ∧
      calculate_npv ([] : List ℚ) (1/3) = Except.ok 0 :=
  calculate_npv_neg_one [5, 7] (1/3) (by decide)

/-- C9: the depreciation parameter affects only the `fcf` field — a
call with depreciation `d + δ` returns the rows of the call with `d`,
with every field unchanged except `fcf`, which is shifted by exactly
`δ`. -/
theorem financial_projection_dep_shift (R g m t c w d δ : ℚ) :
    financial_projection R g m t c w (d + δ) =
      (financial_projection R g m t c w d).map
        (fun row => { row with fcf := row.fcf + δ }) :=
  projAux_dep_shift g m t c w d δ 5 1 R

/-- C10: a non-positive trial count makes `range(num_simulations)`
empty, so `monte_carlo_simulation` returns the empty list without
error, for every schedule, mean and standard deviation. -/
theorem monte_carlo_nonpos (ω : ℕ → ℚ) (fcff : List ℚ) (r_mean r_std : ℚ)
    (n : ℤ) (hn : n ≤ 0) :
    monte_carlo_simulation ω fcff r_mean r_std n = Except.ok [] := by
  simp [monte_carlo_simulation, Int.toNat_of_nonpos hn, mapExcept]

/-- Witness for C10 at `n = -5`. -/
theorem monte_carlo_nonpos_witness :
    monte_carlo_simulation (fun _ => 0) [1, 2] (1/10) (1/50) (-5) =
      Except.ok [] :=
  monte_carlo_nonpos (fun _ => 0) [1, 2] (1/10) (1/50) (-5) (by decide)

/-- C3: with `discount_rate = terminal_growth_rate`, `dcf_valuation`
always signals an explicit, typed failure (an `Except.error` the caller
can detect): a `ZeroDivisionError` from the terminal-value division
`(r - g = 0)` — or, on degenerate inputs, from the rate `r = -1` or an
`IndexError` on the empty schedule — never a silent ±infinity or NaN. -/
theorem dcf_valuation_degenerate (fcfs : List ℚ) (r : ℚ) :
    ∃ e, dcf_valuation fcfs r r = Except.error e := by
  rcases List.eq_nil_or_concat fcfs with rfl | ⟨L, a, rfl⟩
  · exact ⟨PyErr.indexError, rfl⟩
  · by_cases h : (1 : ℚ) + r = 0
    · refine ⟨PyErr.zeroDivision, ?_⟩
      cases L with
      | nil =>
        simp [dcf_valuation, List.concat_eq_append, List.enumFrom, mapExcept,
          pydiv, h]
      | cons b t =>
        simp [dcf_valuation, List.concat_eq_append, List.enumFrom, mapExcept,
          pydiv, h]
    · refine ⟨PyErr.zeroDivision, ?_⟩
      rw [List.concat_eq_append]
      have hmap := mapExcept_ok (fun p : ℕ × ℚ => pydiv p.2 ((1 + r) ^ p.1))
        (fun p : ℕ × ℚ => p.2 / (1 + r) ^ p.1) (List.enumFrom 1 (L ++ [a]))
        (fun p _ => pydiv_ok (pow_ne_zero p.1 h))
      simp only [dcf_valuation, hmap]
      simp [List.getLast?_concat, pydiv, sub_self]

/-- C4, counterexample: with initial revenue 0 (an allowed value of
the "remaining parameters") and positive growth rate 1, every
projected revenue is 0, so the revenues are not strictly increasing. -/
theorem financial_projection_rev_const :
    (0 : ℚ) < 1 ∧
      ¬ List.Chain' (· < ·)
        ((financial_projection 0 1 0 0 0 0 0).map ProjRow.revenue) := by
  refine ⟨by norm_num, ?_⟩
  norm_num [financial_projection, projAux, List.chain'_cons]

/-- C4, amended: for every positive growth rate and positive initial
revenue (and any values of the other parameters), the revenues of the
5 returned rows are strictly increasing. -/
theorem financial_projection_rev_increasing (R g m t c w d : ℚ)
    (hR : 0 < R) (hg : 0 < g) :
    List.Chain' (· < ·)
      ((financial_projection R g m t c w d).map ProjRow.revenue) := by
  have h1 : (0 : ℚ) < 1 + g := by linarith
  have key : ∀ x : ℚ, 0 < x → x < x * (1 + g) := by
    intro x hx
    nlinarith
  have p0 : 0 < R * (1 + g) := mul_pos hR h1
  have p1 : 0 < R * (1 + g) * (1 + g) := mul_pos p0 h1
  have p2 : 0 < R * (1 + g) * (1 + g) * (1 + g) := mul_pos p1 h1
  have p3 : 0 < R * (1 + g) * (1 + g) * (1 + g) * (1 + g) := mul_pos p2 h1
  simp only [financial_projection, projAux, List.map_cons, List.map_nil,
    List.chain'_cons, List.chain'_singleton, and_true]
  exact ⟨key _ p0, key _ p1, key _ p2, key _ p3⟩

/-- Witness for C4 at `R = 1`, `g = 1`. -/
theorem financial_projection_rev_increasing_witness :
    List.Chain' (· < ·)
      ((financial_projection 1 1 0 0 0 0 0).map ProjRow.revenue) :=
  financial_projection_rev_increasing 1 1 0 0 0 0 0 (by norm_num) (by norm_num)

/-- C7: with standard deviation 0 every draw equals the mean, so for
`r ≠ -1` and `n ≥ 0` the simulation returns exactly `n` values, each
equal to the value `calculate_npv` returns on the schedule at `r`. -/
theorem monte_carlo_zero_std (ω : ℕ → ℚ) (fcff : List ℚ) (r : ℚ) (n : ℤ)
    (hr : r ≠ -1) (hn : 0 ≤ n) :
    calculate_npv fcff r = Except.ok (npvVal fcff r) ∧
      monte_carlo_simulation ω fcff r 0 n =
        Except.ok (List.replicate n.toNat (npvVal fcff r)) ∧
      ((List.replicate n.toNat (npvVal fcff r)).length : ℤ) = n := by
  have hr' : (1 : ℚ) + r ≠ 0 := fun hc => hr (by linarith)
  refine ⟨calculate_npv_ok fcff r hr', ?_, by simp [Int.toNat_of_nonneg hn]⟩
  have h : ∀ k ∈ List.range n.toNat,
      calculate_npv fcff (normalDraw ω r 0 k) = Except.ok (npvVal fcff r) := by
    intro k _
    have : normalDraw ω r 0 k = r := by simp [normalDraw]
    rw [this]
    exact calculate_npv_ok fcff r hr'
  have hm := mapExcept_ok (fun k => calculate_npv fcff (normalDraw ω r 0 k))
    (fun _ => npvVal fcff r) (List.range n.toNat) h
  simpa [monte_carlo_simulation, List.map_const'] using hm

/-- Witness for C7 at `fcff = [100]`, `r = 1/10`, `n = 3`. -/
theorem monte_carlo_zero_std_witness :
    calculate_npv [100] (1/10) = Except.ok (npvVal [100] (1/10)) ∧
      monte_carlo_simulation (fun _ => 0) [100] (1/10) 0 3 =
        Except.ok (List.replicate (3 : ℤ).toNat (npvVal [100] (1/10))) ∧
      ((List.replicate (3 : ℤ).toNat (npvVal [100] (1/10))).length : ℤ) = 3 :=
  monte_carlo_zero_std (fun _ => 0) [100] (1/10) 3 (by norm_num) (by decide)

/-- C8: `calculate_npv` is homogeneous of degree 1 in the schedule,
so the FCFF sensitivity sweep's row at percent change `k` is exactly
`(1 + k/100)` times the base NPV, and the row at change 0 is exactly
the base NPV. -/
theorem npv_homogeneous_sensitivity (s : List ℚ) (c r : ℚ) (lo hi : ℤ)
    (hr : r ≠ -1) :
    calculate_npv s r = Except.ok (npvVal s r) ∧
      calculate_npv (s.map (fun x => c * x)) r = Except.ok (c * npvVal s r) ∧
      sensitivity_fcff s r lo hi =
        Except.ok ((rangeIncl lo hi).map
          (fun (k : ℤ) => (k, (1 + (k : ℚ) / 100) * npvVal s r))) ∧
      (1 + ((0 : ℤ) : ℚ) / 100) * npvVal s r = npvVal s r := by
  have hr' : (1 : ℚ) + r ≠ 0 := fun hc => hr (by linarith)
  refine ⟨calculate_npv_ok s r hr', ?_, ?_, by norm_num⟩
  · have hmap : s.map (fun x => c * x) = s.map (fun x => x * c) := by
      simp [mul_comm]
    rw [hmap, calculate_npv_ok (s.map (fun x => x * c)) r hr', npvVal_map_mul]
  · refine mapExcept_ok _ _ _ ?_
    intro k _
    simp only [calculate_npv_ok (s.map (fun f => f * (1 + (k : ℚ) / 100))) r hr',
      npvVal_map_mul]

/-- Witness for C8 at `s = [100]`, `c = 2`, `r = 1/10`, range `[-1, 1]`. -/
theorem npv_homogeneous_sensitivity_witness :
    calculate_npv [100] (1/10) = Except.ok (npvVal [100] (1/10)) ∧
      calculate_npv (List.map (fun x => 2 * x) [100]) (1/10) =
        Except.ok (2 * npvVal [100] (1/10)) ∧
      sensitivity_fcff [100] (1/10) (-1) 1 =
        Except.ok ((rangeIncl (-1) 1).map
          (fun (k : ℤ) => (k, (1 + (k : ℚ) / 100) * npvVal [100] (1/10)))) ∧
      (1 + ((0 : ℤ) : ℚ) / 100) * npvVal [100] (1/10) = npvVal [100] (1/10) :=
  npv_homogeneous_sensitivity [100] 2 (1/10) (-1) 1 (by norm_num)

/-- C6, counterexample: with positive cash flows `[1, 1]` and
`g = -10 < r1 = -2 < r2 = -1/2`, the valuation rises from `-9/8` at
`r1` to `42/19` at `r2`, so `dcf_valuation` is not decreasing on the
whole region `discount_rate > terminal_growth_rate`. -/
theorem dcf_valuation_not_anti :
    (-10 : ℚ) < -2 ∧ (-2 : ℚ) < -1/2 ∧
      dcf_valuation [1, 1] (-2) (-10) = Except.ok (-9/8) ∧
      dcf_valuation [1, 1] (-1/2) (-10) = Except.ok (42/19) ∧
      (-9/8 : ℚ) < 42/19 := by
  refine ⟨by norm_num, by norm_num, ?_, ?_, by norm_num⟩
  · norm_num [dcf_valuation, mapExcept, pydiv, List.enumFrom]
  · norm_num [dcf_valuation, mapExcept, pydiv, List.enumFrom]

/-- C6, amended: for a nonempty schedule of positive cash flows,
`dcf_valuation` is strictly decreasing in the discount rate on the
region where it exceeds both the terminal growth rate and `-1`:
if `g < r1 < r2` and `-1 < r1` then both calls succeed and the value
at `r2` is strictly below the value at `r1`. -/
theorem dcf_valuation_strict_anti (fcfs : List ℚ) (g r1 r2 : ℚ)
    (hne : fcfs ≠ []) (hpos : ∀ f ∈ fcfs, 0 < f)
    (hg : g < r1) (h12 : r1 < r2) (hm1 : (-1 : ℚ) < r1) :
    dcf_valuation fcfs r2 g = Except.ok (dcfVal fcfs r2 g) ∧
      dcf_valuation fcfs r1 g = Except.ok (dcfVal fcfs r1 g) ∧
      dcfVal fcfs r2 g < dcfVal fcfs r1 g := by
  have h1 : (0 : ℚ) < 1 + r1 := by linarith
  have h2 : (0 : ℚ) < 1 + r2 := by linarith
  have h1ne : (1 : ℚ) + r1 ≠ 0 := ne_of_gt h1
  have h2ne : (1 : ℚ) + r2 ≠ 0 := ne_of_gt h2
  have hrg1 : r1 - g ≠ 0 := ne_of_gt (by linarith)
  have hrg2 : r2 - g ≠ 0 := ne_of_gt (by linarith)
  refine ⟨dcf_valuation_ok fcfs r2 g hne h2ne hrg2,
    dcf_valuation_ok fcfs r1 g hne h1ne hrg1, ?_⟩
  rcases List.eq_nil_or_concat fcfs with rfl | ⟨L, a, rfl⟩
  · exact absurd rfl hne
  · simp only [List.concat_eq_append] at hpos ⊢
    rw [dcfVal_concat L a r2 g h2ne hrg2, dcfVal_concat L a r1 g h1ne hrg1]
    have hsum := npv_terms_sum_anti (List.enumFrom 1 L) r1 r2
      (fun p hp => (hpos p.2
        (List.mem_append_left _ (List.snd_mem_of_mem_enumFrom hp))).le)
      h1 h12
    have ha : 0 < a := hpos a (by simp)
    have hd1 : (0 : ℚ) < (r1 - g) * (1 + r1) ^ L.length :=
      mul_pos (by linarith) (pow_pos h1 _)
    have hp12 : (1 + r1) ^ L.length ≤ (1 + r2) ^ L.length :=
      pow_le_pow_left₀ h1.le (by linarith) _
    have hdlt : (r1 - g) * (1 + r1) ^ L.length <
        (r2 - g) * (1 + r2) ^ L.length := by
      calc (r1 - g) * (1 + r1) ^ L.length
          < (r2 - g) * (1 + r1) ^ L.length :=
            mul_lt_mul_of_pos_right (by linarith) (pow_pos h1 _)
        _ ≤ (r2 - g) * (1 + r2) ^ L.length :=
            mul_le_mul_of_nonneg_left hp12 (by linarith)
    exact add_lt_add_of_le_of_lt hsum (div_lt_div_of_pos_left ha hd1 hdlt)

/-- Witness for C6 at `fcfs = [1]`, `g = 0`, `r1 = 1/10`, `r2 = 1/5`. -/
theorem dcf_valuation_strict_anti_witness :
    dcf_valuation [1] (1/5) 0 = Except.ok (dcfVal [1] (1/5) 0) ∧
      dcf_valuation [1] (1/10) 0 = Except.ok (dcfVal [1] (1/10) 0) ∧
      dcfVal [1] (1/5) 0 < dcfVal [1] (1/10) 0 :=
  dcf_valuation_strict_anti [1] 0 (1/10) (1/5) (by simp)
    (by intro f hf; simp at hf; simp [hf]) (by norm_num) (by norm_num)
    (by norm_num)
